import Mathlib

/-!
Shallow embedding of the allocation-pool management logic of the
`argon-ui` admin console (`src/pages/[admin]/Nodes.tsx` and
`src/components/SearchBar.tsx`), together with theorems checking the
natural-language specification against it.

Numeric fields that are JavaScript numbers holding integral values are
modelled as `Int` (or `Nat` where the source guarantees non-negativity);
`Array.prototype.slice` on non-negative clamped indices is modelled by
`jsSlice`; absent (`undefined`) fields are modelled by `Option`.
-/

namespace ArgonUI

/-- `SystemState` interface from Nodes.tsx. -/
structure SystemState where
  version : String
  kernel : String
  osVersion : String
  hostname : String
  cpuCores : Nat
  memoryTotal : Nat
deriving DecidableEq

/-- `Allocation` interface from Nodes.tsx (`alias` is a Lean keyword, hence
the guillemets). -/
structure Allocation where
  id : String
  nodeId : String
  port : Nat
  bindAddress : String
  «alias» : Option String
  notes : Option String
  assigned : Bool
deriving DecidableEq

/-- `resources` record attached to a node by `fetchData`. -/
structure NodeResources where
  memoryAllocated : Int
  diskAllocated : Int
  cpuAllocated : Int
deriving DecidableEq

/-- `Node` interface from Nodes.tsx (fields used by the modelled logic). -/
structure Node where
  id : String
  name : String
  fqdn : String
  port : Nat
  isOnline : Bool
  systemState : Option SystemState
  allocations : Option (List Allocation)
  resources : Option NodeResources
deriving DecidableEq

/-- `Server` interface from Nodes.tsx (fields used by the modelled logic);
`node` carries the back-reference whose `id` the aggregator filters on. -/
structure Server where
  id : String
  name : String
  cpuPercent : Int
  memoryMiB : Int
  diskMiB : Option Int
  node : Node
deriving DecidableEq

/-- `PaginationState` interface from Nodes.tsx. -/
structure PaginationState where
  page : Nat
  limit : Nat
  total : Nat
deriving DecidableEq

/-- JavaScript `Array.prototype.slice(a, b)` for non-negative indices:
elements at indices `[a, min(b, length))`. -/
def jsSlice (l : List α) (a b : Nat) : List α :=
  (l.drop a).take (b - a)

/-- `assignedAllocations` from `renderAllocationTab`:
`allocations.filter(a => a.assigned)`. -/
def assignedAllocations (allocations : List Allocation) : List Allocation :=
  allocations.filter (fun a => a.assigned)

/-- `unassignedAllocations` from `renderAllocationTab`:
`allocations.filter(a => !a.assigned)`. -/
def unassignedAllocations (allocations : List Allocation) : List Allocation :=
  allocations.filter (fun a => !a.assigned)

/-- `paginatedAssigned` from `renderAllocationTab`:
`assignedAllocations.slice((page-1)*limit, page*limit)`. -/
def paginatedAssigned (allocations : List Allocation) (page limit : Nat) :
    List Allocation :=
  jsSlice (assignedAllocations allocations) ((page - 1) * limit) (page * limit)

/-- `paginatedUnassigned` from `renderAllocationTab`:
`unassignedAllocations.slice(max(0, (page-1)*limit - assignedCount),
max(0, page*limit - assignedCount))` (the `Math.max(0, ·)` is `Nat`
truncated subtraction here). -/
def paginatedUnassigned (allocations : List Allocation) (page limit : Nat) :
    List Allocation :=
  jsSlice (unassignedAllocations allocations)
    ((page - 1) * limit - (assignedAllocations allocations).length)
    (page * limit - (assignedAllocations allocations).length)

/-- `showAssigned` from `renderAllocationTab`: `startIdx < assignedAllocations.length`. -/
def showAssigned (allocations : List Allocation) (page limit : Nat) : Bool :=
  (page - 1) * limit < (assignedAllocations allocations).length

/-- `showUnassigned` from `renderAllocationTab`: `endIdx > assignedAllocations.length`. -/
def showUnassigned (allocations : List Allocation) (page limit : Nat) : Bool :=
  (assignedAllocations allocations).length < page * limit

/-- The JSX renders the "In Use" group iff
`showAssigned && assignedAllocations.length > 0`. -/
def assignedGroupRendered (allocations : List Allocation) (page limit : Nat) : Bool :=
  showAssigned allocations page limit && 0 < (assignedAllocations allocations).length

/-- The JSX renders the "Available" group iff
`showUnassigned && unassignedAllocations.length > 0`. -/
def unassignedGroupRendered (allocations : List Allocation) (page limit : Nat) : Bool :=
  showUnassigned allocations page limit && 0 < (unassignedAllocations allocations).length

/-- The allocations displayed on one page: the rendered assigned group
followed by the rendered unassigned group, exactly as the JSX lays them out. -/
def pageDisplay (allocations : List Allocation) (page limit : Nat) : List Allocation :=
  (if assignedGroupRendered allocations page limit
   then paginatedAssigned allocations page limit else [])
  ++ (if unassignedGroupRendered allocations page limit
      then paginatedUnassigned allocations page limit else [])

/-- `Math.ceil(total / limit)` for naturals (`limit ≥ 1`). -/
def ceilDivNat (total limit : Nat) : Nat :=
  (total + limit - 1) / limit

/-- Concatenation of the displayed pages `1 .. ceil(total/limit)`. -/
def concatPages (allocations : List Allocation) (limit : Nat) : List Allocation :=
  ((List.range (ceilDivNat allocations.length limit)).map
    (fun i => pageDisplay allocations (i + 1) limit)).flatten

/-- Pagination update performed by `handleDeleteAllocation` after the refresh
returns a node with `newTotal` allocations:
`totalPages = Math.ceil(len / limit)`; if `page > totalPages && totalPages > 0`
the page is clamped to `totalPages`; in both branches `total := len`. -/
def updatePaginationAfterDelete (prev : PaginationState) (newTotal : Nat) :
    PaginationState :=
  let totalPages := ceilDivNat newTotal prev.limit
  if totalPages < prev.page ∧ 0 < totalPages then
    { prev with page := totalPages, total := newTotal }
  else
    { prev with total := newTotal }

/-- Pagination update performed by `handleCreateAllocation` (and by
`fetchSingleNode`) after a refresh: when the refreshed node carries an
allocation list, `total` is set to its length; otherwise the state is
left untouched (`if (updatedNode.allocations)` guard). -/
def refreshPaginationTotal (prev : PaginationState)
    (allocations : Option (List Allocation)) : PaginationState :=
  match allocations with
  | some l => { prev with total := l.length }
  | none => prev

/-- Resource aggregation from `fetchData`: filter the servers bound to
this node and reduce each metric with `+` starting from `0`. -/
def computeNodeResources (node : Node) (servers : List Server) : NodeResources :=
  let nodeServers := servers.filter (fun s => s.node.id == node.id)
  { memoryAllocated := nodeServers.foldl (fun sum s => sum + s.memoryMiB * 1024 * 1024) 0
    diskAllocated := nodeServers.foldl (fun sum s => sum + (s.diskMiB.getD 0) * 1024 * 1024) 0
    cpuAllocated := nodeServers.foldl (fun sum s => sum + s.cpuPercent) 0 }

/-- Body of the `DELETE /api/nodes/:id` response as `handleDelete` reads it. -/
structure DeleteNodeResponse where
  ok : Bool
  count : Option Int
  error : Option String

/-- The three user-visible outcomes of `handleDelete`: a success alert after
a refresh, a warning alert carrying the active-server count, or a generic
error alert. -/
inductive DeleteNodeOutcome where
  | success : DeleteNodeOutcome
  | blocked : Int → DeleteNodeOutcome
  | genericFailure : String → DeleteNodeOutcome
deriving DecidableEq

/-- The page state `handleDelete` reads and writes. -/
structure NodesPageState where
  nodes : List Node
  selectedNode : Option Node
  viewIsList : Bool
deriving DecidableEq

/-- JavaScript condition `data.count && data.count > 0`:
`count` present, truthy (non-zero) and greater than zero. -/
def blockedCheck : Option Int → Bool
  | some c => (c != 0) && decide (0 < c)
  | none => false

/-- `handleDelete` from Nodes.tsx. On a successful response it refreshes the
node list (the refreshed list is an input here, standing for `fetchData`) and,
if the deleted node was selected, returns to the list view; on a failed
response carrying a positive `count` it shows the blocked warning and returns
early without touching any state; on any other failed response it shows a
generic error, also without touching state. -/
def handleDelete (st : NodesPageState) (nodeId : String)
    (resp : DeleteNodeResponse) (refreshedNodes : List Node) :
    NodesPageState × DeleteNodeOutcome :=
  if resp.ok then
    let st1 := { st with nodes := refreshedNodes }
    let st2 :=
      if st.selectedNode.any (fun n => n.id == nodeId) then
        { st1 with viewIsList := true, selectedNode := none }
      else st1
    (st2, .success)
  else if blockedCheck resp.count then
    (st, .blocked (resp.count.getD 0))
  else
    (st, .genericFailure (resp.error.getD "Failed to delete node"))

/-- One server-side allocation deletion as seen through
`handleDeleteAllocation`: when the request succeeds the allocation leaves the
pool; when it fails (the handler catches and only shows an alert) the pool is
unchanged. `succeeds` is the oracle saying which requests the server accepts. -/
def deleteAllocOnServer (succeeds : String → Bool) (pool : List Allocation)
    (allocationId : String) : List Allocation :=
  if succeeds allocationId then pool.filter (fun a => a.id != allocationId) else pool

/-- The `for (const id of selectedAllocations) { try { await ... } catch ... }`
loop of `handleDeleteSelected`: deletions are issued one after the other, each
threading the pool state left by the previous one, and a failure never stops
the loop. Returns the final pool and the ids attempted, in issue order. -/
def deleteSelectedSweep (succeeds : String → Bool) (pool : List Allocation) :
    List String → List Allocation × List String
  | [] => (pool, [])
  | id :: rest =>
    let pool1 := deleteAllocOnServer succeeds pool id
    let (pool2, attempts) := deleteSelectedSweep succeeds pool1 rest
    (pool2, id :: attempts)

/-- `handleDeleteSelected`: run the sweep over the selected ids, then clear
the selection (`setSelectedAllocations([])`). Returns
(final pool, attempted ids, final selection). -/
def handleDeleteSelected (succeeds : String → Bool) (pool : List Allocation)
    (selectedAllocations : List String) :
    List Allocation × List String × List String :=
  let (pool', attempts) := deleteSelectedSweep succeeds pool selectedAllocations
  (pool', attempts, [])

/-- Outcome of the per-node status probe `fetch(http://fqdn:port/api/v1/state)`:
an ok response with a body, a non-ok response (`throw` inside the `try`), or a
network failure (the fetch itself rejects). -/
inductive ProbeResult where
  | ok : SystemState → ProbeResult
  | httpError : ProbeResult
  | networkFailure : ProbeResult

/-- `fetchNodeState` from Nodes.tsx: returns the parsed body on success and
`null` on any failure (the `catch` swallows both the thrown non-ok error and
the network rejection). -/
def fetchNodeState (probe : Node → ProbeResult) (node : Node) :
    Option SystemState :=
  match probe node with
  | .ok s => some s
  | .httpError => none
  | .networkFailure => none

/-- The per-node step of the `nodesWithState` map in `fetchData`:
online nodes get `{ ...node, systemState }` from their probe, offline nodes
are returned unchanged. -/
def updateNodeState (probe : Node → ProbeResult) (node : Node) : Node :=
  if node.isOnline then { node with systemState := fetchNodeState probe node }
  else node

/-- The `nodesWithState` computation of `fetchData`, instrumented to also
record, in order, the ids of the nodes a probe was issued for. -/
def attachSystemStates (probe : Node → ProbeResult) :
    List Node → List Node × List String
  | [] => ([], [])
  | node :: rest =>
    let (rest', probed) := attachSystemStates probe rest
    if node.isOnline then
      ({ node with systemState := fetchNodeState probe node } :: rest',
       node.id :: probed)
    else
      (node :: rest', probed)

/-- `totalPages` from `renderPagination`: `Math.max(1, Math.ceil(total/limit))`. -/
def totalPagesUI (pagination : PaginationState) : Nat :=
  max 1 (ceilDivNat pagination.total pagination.limit)

/-- The page numbers rendered by `renderPagination`:
`Array.from({length: Math.min(5, totalPages)}, (_, i) => ...)` with the
four-branch numbering rule. -/
def pageButtons (pagination : PaginationState) : List Nat :=
  let totalPages := totalPagesUI pagination
  let currentPage := pagination.page
  (List.range (min 5 totalPages)).map (fun i =>
    if totalPages ≤ 5 then i + 1
    else if currentPage ≤ 3 then i + 1
    else if totalPages - 2 ≤ currentPage then totalPages - 4 + i
    else currentPage - 2 + i)

end ArgonUI

namespace SearchBar

/-- The `node` sub-record of the `Server` interface in SearchBar.tsx. -/
structure NodeRef where
  fqdn : List Char
  port : Nat
deriving DecidableEq

/-- `Server` interface from SearchBar.tsx; strings are modelled as
character lists so lowercasing and containment compute. -/
structure Server where
  id : List Char
  name : List Char
  node : Option NodeRef
deriving DecidableEq

/-- `a` is a prefix of `b` (character-by-character). -/
def charsPrefix : List Char → List Char → Bool
  | [], _ => true
  | _ :: _, [] => false
  | a :: as, b :: bs => a == b && charsPrefix as bs

/-- JavaScript `String.prototype.includes`: `sub` occurs contiguously in `s`. -/
def jsIncludes (s sub : List Char) : Bool :=
  match s with
  | [] => sub.isEmpty
  | _ :: rest => charsPrefix sub s || jsIncludes rest sub

/-- `s.toLowerCase()`. -/
def jsToLower (s : List Char) : List Char :=
  s.map Char.toLower

/-- JavaScript `!query.trim()`: the query is empty or all whitespace. -/
def queryBlank (query : List Char) : Bool :=
  query.all Char.isWhitespace

/-- The filter predicate of the SearchBar effect:
`server.name.toLowerCase().includes(lowerQuery) ||
 server.node?.fqdn.toLowerCase().includes(lowerQuery)`
(optional chaining: a missing `node` makes the second disjunct falsy). -/
def matchesQuery (lowerQuery : List Char) (server : Server) : Bool :=
  jsIncludes (jsToLower server.name) lowerQuery ||
  (match server.node with
   | some node => jsIncludes (jsToLower node.fqdn) lowerQuery
   | none => false)

/-- The query-filtering `useEffect` of SearchBar.tsx as a function from
(cached servers, query, previous selection index) to
(filtered servers, new selection index): a blank query restores the whole
list and returns early, leaving the index alone; otherwise the list is
filtered and the index reset to `0`. -/
def filterEffect (servers : List Server) (query : List Char)
    (prevIndex : Nat) : List Server × Nat :=
  if queryBlank query then (servers, prevIndex)
  else (servers.filter (matchesQuery (jsToLower query)), 0)

end SearchBar

namespace ArgonUI

/-! ### Helper lemmas about `jsSlice` and page chunking -/

theorem jsSlice_min_len (l : List α) (a b : Nat) :
    jsSlice l a (min l.length b) = jsSlice l a b := by
  unfold jsSlice
  rcases le_or_lt b l.length with h | h
  · rw [min_eq_right h]
  · rw [min_eq_left h.le]
    rw [List.take_of_length_le, List.take_of_length_le]
    · simp only [List.length_drop]
      omega
    · simp only [List.length_drop]
      omega

theorem jsSlice_append (x y : List α) (a b : Nat) :
    jsSlice (x ++ y) a b =
      jsSlice x a b ++ jsSlice y (a - x.length) (b - x.length) := by
  unfold jsSlice
  rw [List.drop_append_eq_append_drop, List.take_append_eq_append_take]
  congr 1
  rw [List.length_drop]
  congr 1
  omega

theorem jsSlice_eq_nil_of_le (l : List α) (a b : Nat) (h : l.length ≤ a) :
    jsSlice l a b = [] := by
  unfold jsSlice
  rw [List.drop_eq_nil_of_le h, List.take_nil]

theorem jsSlice_eq_nil_of_sub (l : List α) (a b c : Nat) (h : b ≤ c) :
    jsSlice l (a - c) (b - c) = [] := by
  unfold jsSlice
  have : b - c - (a - c) = 0 := by omega
  rw [this, List.take_zero]

theorem flatten_chunks (L : Nat) :
    ∀ (N : Nat) (l : List α), l.length ≤ N * L →
      ((List.range N).map (fun i => jsSlice l (i * L) ((i + 1) * L))).flatten = l := by
  intro N
  induction N with
  | zero =>
    intro l h
    simp only [Nat.zero_mul, Nat.le_zero] at h
    rw [List.length_eq_zero.mp h]
    rfl
  | succ n ih =>
    intro l h
    rw [List.range_succ_eq_map]
    rw [List.map_cons, List.map_map, List.flatten_cons]
    have hhead : jsSlice l (0 * L) ((0 + 1) * L) = l.take L := by
      unfold jsSlice
      simp
    have htail : ∀ i : Nat,
        jsSlice l ((i + 1) * L) ((i + 1 + 1) * L) =
          jsSlice (l.drop L) (i * L) ((i + 1) * L) := by
      intro i
      unfold jsSlice
      rw [List.drop_drop]
      have ha : (i + 1) * L = i * L + L := Nat.succ_mul i L
      have hb : (i + 1 + 1) * L = (i + 1) * L + L := Nat.succ_mul (i + 1) L
      have h1 : L + i * L = (i + 1) * L := by omega
      have h2 : (i + 1 + 1) * L - (i + 1) * L = (i + 1) * L - i * L := by omega
      rw [h1, h2]
    have hcongr : (List.range n).map ((fun i => jsSlice l (i * L) ((i + 1) * L)) ∘ (· + 1))
        = (List.range n).map (fun i => jsSlice (l.drop L) (i * L) ((i + 1) * L)) := by
      apply List.map_congr_left
      intro i _
      exact htail i
    have hlen : (l.drop L).length ≤ n * L := by
      have hc : (n + 1) * L = n * L + L := Nat.succ_mul n L
      simp only [List.length_drop]
      omega
    rw [hhead, hcongr, ih (l.drop L) hlen]
    exact List.take_append_drop L l

theorem le_ceilDivNat_mul (t L : Nat) (hL : 1 ≤ L) : t ≤ ceilDivNat t L * L := by
  unfold ceilDivNat
  rcases Nat.eq_zero_or_pos t with rfl | ht
  · simp
  · have h1 := Nat.div_add_mod (t + L - 1) L
    have h2 : (t + L - 1) % L < L := Nat.mod_lt _ (by omega)
    have h4 : L * ((t + L - 1) / L) = t + L - 1 - (t + L - 1) % L :=
      Nat.eq_sub_of_add_eq h1
    rw [Nat.mul_comm, h4]
    omega

theorem ceilDivNat_pos (t L : Nat) (hL : 1 ≤ L) (ht : 1 ≤ t) :
    1 ≤ ceilDivNat t L := by
  unfold ceilDivNat
  rw [Nat.one_le_div_iff (by omega)]
  omega

theorem paginatedAssigned_eq_nil (allocations : List Allocation) (page limit : Nat)
    (h : assignedGroupRendered allocations page limit = false) :
    paginatedAssigned allocations page limit = [] := by
  unfold assignedGroupRendered showAssigned at h
  simp only [Bool.and_eq_false_iff, decide_eq_false_iff_not, Nat.not_lt] at h
  unfold paginatedAssigned
  rcases h with h | h
  · exact jsSlice_eq_nil_of_le _ _ _ h
  · exact jsSlice_eq_nil_of_le _ _ _ (by omega)

theorem paginatedUnassigned_eq_nil (allocations : List Allocation) (page limit : Nat)
    (h : unassignedGroupRendered allocations page limit = false) :
    paginatedUnassigned allocations page limit = [] := by
  unfold unassignedGroupRendered showUnassigned at h
  simp only [Bool.and_eq_false_iff, decide_eq_false_iff_not, Nat.not_lt] at h
  unfold paginatedUnassigned
  rcases h with h | h
  · exact jsSlice_eq_nil_of_sub _ _ _ _ h
  · exact jsSlice_eq_nil_of_le _ _ _ (by omega)

theorem pageDisplay_eq (allocations : List Allocation) (page limit : Nat) :
    pageDisplay allocations page limit =
      paginatedAssigned allocations page limit
        ++ paginatedUnassigned allocations page limit := by
  unfold pageDisplay
  congr 1
  · rcases hb : assignedGroupRendered allocations page limit with _ | _
    · rw [if_neg (by simp [hb]), paginatedAssigned_eq_nil _ _ _ hb]
    · rw [if_pos (by simp [hb])]
  · rcases hb : unassignedGroupRendered allocations page limit with _ | _
    · rw [if_neg (by simp [hb]), paginatedUnassigned_eq_nil _ _ _ hb]
    · rw [if_pos (by simp [hb])]

theorem foldl_add_eq_sum {α : Type*} (f : α → Int) (l : List α) (init : Int) :
    l.foldl (fun sum a => sum + f a) init = init + (l.map f).sum := by
  induction l generalizing init with
  | nil => simp
  | cons a t ih => simp [ih, add_assoc]

theorem pageDisplay_eq_slice (allocations : List Allocation) (i limit : Nat) :
    pageDisplay allocations (i + 1) limit =
      jsSlice (assignedAllocations allocations ++ unassignedAllocations allocations)
        (i * limit) ((i + 1) * limit) := by
  rw [pageDisplay_eq, jsSlice_append]
  rfl

end ArgonUI

open ArgonUI

/-! ### Concrete sample data -/

/-- A sample allocation (all non-discriminating fields fixed). -/
def mkAlloc (id : String) (assigned : Bool) : Allocation :=
  { id := id, nodeId := "node-1", port := 25565, bindAddress := "0.0.0.0",
    «alias» := none, notes := none, assigned := assigned }

/-- The spec scenario pool: 12 unassigned plus 3 assigned allocations. -/
def scenarioPool : List Allocation :=
  [mkAlloc "u01" false, mkAlloc "u02" false, mkAlloc "u03" false,
   mkAlloc "u04" false, mkAlloc "u05" false, mkAlloc "u06" false,
   mkAlloc "u07" false, mkAlloc "u08" false, mkAlloc "u09" false,
   mkAlloc "u10" false, mkAlloc "u11" false, mkAlloc "u12" false,
   mkAlloc "a1" true, mkAlloc "a2" true, mkAlloc "a3" true]

/-! ### Claim theorems -/

/-- C1: for every allocation list, page `P ≥ 1` and page size `L ≥ 1`, with
`start = (P-1)*L` and `end = P*L`, the assigned slice displayed equals
`assigned[max(0,start) : min(assignedCount,end)]`, the unassigned slice
displayed equals `unassigned[max(0,start-assignedCount) : max(0,end-assignedCount)]`,
the assigned group is rendered iff `start < assignedCount` and the assigned
subset is non-empty, and the unassigned group is rendered iff
`end > assignedCount` and the unassigned subset is non-empty. -/
theorem C1_partitioned_pager (allocations : List Allocation) (P L : Nat)
    (_hP : 1 ≤ P) (_hL : 1 ≤ L) :
    paginatedAssigned allocations P L =
      jsSlice (assignedAllocations allocations) (max 0 ((P - 1) * L))
        (min (assignedAllocations allocations).length (P * L))
    ∧ paginatedUnassigned allocations P L =
      jsSlice (unassignedAllocations allocations)
        (max 0 ((P - 1) * L - (assignedAllocations allocations).length))
        (max 0 (P * L - (assignedAllocations allocations).length))
    ∧ (assignedGroupRendered allocations P L = true ↔
        (P - 1) * L < (assignedAllocations allocations).length
          ∧ assignedAllocations allocations ≠ [])
    ∧ (unassignedGroupRendered allocations P L = true ↔
        (assignedAllocations allocations).length < P * L
          ∧ unassignedAllocations allocations ≠ []) := by
  refine ⟨?_, ?_, ?_, ?_⟩
  · rw [Nat.zero_max, jsSlice_min_len]
    rfl
  · rw [Nat.zero_max, Nat.zero_max]
    rfl
  · unfold assignedGroupRendered showAssigned
    rw [Bool.and_eq_true, decide_eq_true_eq, decide_eq_true_eq, List.length_pos]
  · unfold unassignedGroupRendered showUnassigned
    rw [Bool.and_eq_true, decide_eq_true_eq, decide_eq_true_eq, List.length_pos]

/-- Witness for C1: the scenario pool at page 2, page size 10. -/
theorem C1_partitioned_pager_witness :
    (1 ≤ 2 ∧ 1 ≤ 10)
    ∧ (paginatedAssigned scenarioPool 2 10 =
        jsSlice (assignedAllocations scenarioPool) (max 0 ((2 - 1) * 10))
          (min (assignedAllocations scenarioPool).length (2 * 10))
      ∧ paginatedUnassigned scenarioPool 2 10 =
        jsSlice (unassignedAllocations scenarioPool)
          (max 0 ((2 - 1) * 10 - (assignedAllocations scenarioPool).length))
          (max 0 (2 * 10 - (assignedAllocations scenarioPool).length))
      ∧ (assignedGroupRendered scenarioPool 2 10 = true ↔
          (2 - 1) * 10 < (assignedAllocations scenarioPool).length
            ∧ assignedAllocations scenarioPool ≠ [])
      ∧ (unassignedGroupRendered scenarioPool 2 10 = true ↔
          (assignedAllocations scenarioPool).length < 2 * 10
            ∧ unassignedAllocations scenarioPool ≠ [])) :=
  ⟨⟨by decide, by decide⟩, C1_partitioned_pager scenarioPool 2 10 (by decide) (by decide)⟩

/-- C2: for every allocation list and page size `L ≥ 1`, concatenating the
displayed pages `1 .. ceil(total/L)` yields the whole assigned subset (in
original order) followed by the whole unassigned subset (in original order),
and that concatenation is a permutation of the pool — every allocation
appears exactly once. -/
theorem C2_concat_pages (allocations : List Allocation) (L : Nat) (hL : 1 ≤ L) :
    concatPages allocations L =
      assignedAllocations allocations ++ unassignedAllocations allocations
    ∧ (concatPages allocations L).Perm allocations := by
  have key : concatPages allocations L =
      assignedAllocations allocations ++ unassignedAllocations allocations := by
    unfold concatPages
    have hmap : (List.range (ceilDivNat allocations.length L)).map
          (fun i => pageDisplay allocations (i + 1) L)
        = (List.range (ceilDivNat allocations.length L)).map
          (fun i =>
            jsSlice (assignedAllocations allocations ++ unassignedAllocations allocations)
              (i * L) ((i + 1) * L)) := by
      apply List.map_congr_left
      intro i _
      exact pageDisplay_eq_slice allocations i L
    rw [hmap]
    have hlen :
        (assignedAllocations allocations ++ unassignedAllocations allocations).length
          = allocations.length := (List.filter_append_perm _ _).length_eq
    apply flatten_chunks
    rw [hlen]
    exact le_ceilDivNat_mul _ _ hL
  refine ⟨key, ?_⟩
  rw [key]
  exact List.filter_append_perm _ _

/-- Witness for C2: the scenario of the spec — 12 unassigned + 3 assigned
allocations with page size 10: page 1 shows the 3 assigned plus the first 7
unassigned, page 2 shows the remaining 5 unassigned, the total is 15 and
there are 2 pages. -/
theorem C2_concat_pages_witness :
    1 ≤ 10
    ∧ (concatPages scenarioPool 10 =
        assignedAllocations scenarioPool ++ unassignedAllocations scenarioPool
      ∧ (concatPages scenarioPool 10).Perm scenarioPool)
    ∧ pageDisplay scenarioPool 1 10 =
        assignedAllocations scenarioPool ++ (unassignedAllocations scenarioPool).take 7
    ∧ pageDisplay scenarioPool 2 10 = (unassignedAllocations scenarioPool).drop 7
    ∧ scenarioPool.length = 15
    ∧ ceilDivNat scenarioPool.length 10 = 2 :=
  ⟨by decide, C2_concat_pages scenarioPool 10 (by decide),
   by decide, by decide, by decide, by decide⟩

/-- C3 counterexample: with prior pagination state (page 2, limit 10) and a
deletion that empties the pool (resulting count 0), `handleDeleteAllocation`
leaves the page at 2 — it is not clamped to 1 as the claim states, because
the clamp is guarded by `totalPages > 0`. -/
theorem C3_counterexample :
    (updatePaginationAfterDelete { page := 2, limit := 10, total := 11 } 0).page = 2
    ∧ (updatePaginationAfterDelete { page := 2, limit := 10, total := 11 } 0).page ≠ 1
    ∧ (updatePaginationAfterDelete { page := 2, limit := 10, total := 11 } 0).total = 0 := by
  decide

/-- C3 (amended): after a successful allocation deletion, `total` is set to
the resulting count; if the pool stays non-empty and the prior page exceeds
the new last non-empty page `ceil(newTotal/limit)`, the page is clamped down
to that page; if the prior page is still within range the page is unchanged;
and if the pool becomes empty the page is left unchanged (with `total = 0`) —
in particular a page that was 1 stays 1. -/
theorem C3_delete_clamps_page (prev : PaginationState) (newTotal : Nat)
    (hL : 1 ≤ prev.limit) :
    (updatePaginationAfterDelete prev newTotal).total = newTotal
    ∧ (updatePaginationAfterDelete prev newTotal).limit = prev.limit
    ∧ (0 < newTotal → ceilDivNat newTotal prev.limit < prev.page →
        (updatePaginationAfterDelete prev newTotal).page = ceilDivNat newTotal prev.limit)
    ∧ (prev.page ≤ ceilDivNat newTotal prev.limit →
        (updatePaginationAfterDelete prev newTotal).page = prev.page)
    ∧ (newTotal = 0 →
        (updatePaginationAfterDelete prev newTotal).page = prev.page) := by
  refine ⟨?_, ?_, ?_, ?_, ?_⟩
  · unfold updatePaginationAfterDelete
    dsimp only
    split <;> rfl
  · unfold updatePaginationAfterDelete
    dsimp only
    split <;> rfl
  · intro ht hp
    have hpos : 1 ≤ ceilDivNat newTotal prev.limit := ceilDivNat_pos _ _ hL ht
    unfold updatePaginationAfterDelete
    dsimp only
    rw [if_pos ⟨hp, hpos⟩]
  · intro hp
    unfold updatePaginationAfterDelete
    dsimp only
    rw [if_neg (by omega)]
  · intro ht
    subst ht
    have hz : ceilDivNat 0 prev.limit = 0 := by
      unfold ceilDivNat
      exact Nat.div_eq_of_lt (by omega)
    unfold updatePaginationAfterDelete
    dsimp only
    rw [if_neg (by omega)]

/-- Witness for C3 (amended): 11 allocations on limit 10 put page 2 in range;
deleting one leaves 10, so the page is clamped from 2 down to 1. -/
theorem C3_delete_clamps_page_witness :
    1 ≤ 10
    ∧ ((updatePaginationAfterDelete { page := 2, limit := 10, total := 11 } 10).total = 10
      ∧ (updatePaginationAfterDelete { page := 2, limit := 10, total := 11 } 10).limit = 10
      ∧ (0 < 10 → ceilDivNat 10 10 < 2 →
          (updatePaginationAfterDelete { page := 2, limit := 10, total := 11 } 10).page
            = ceilDivNat 10 10)
      ∧ (2 ≤ ceilDivNat 10 10 →
          (updatePaginationAfterDelete { page := 2, limit := 10, total := 11 } 10).page = 2)
      ∧ (10 = 0 →
          (updatePaginationAfterDelete { page := 2, limit := 10, total := 11 } 10).page = 2)) :=
  ⟨by decide, C3_delete_clamps_page { page := 2, limit := 10, total := 11 } 10 (by decide)⟩

/-- C4: after a create (single or range) mutation the refresh sets the
pagination total to the length of the refreshed node's allocation list, and
after a delete mutation the refresh sets it to the resulting pool size — in
both cases for every prior pagination state, so the total carried before the
mutation is never reused. -/
theorem C4_total_recomputed (prev1 prev2 : PaginationState) (l : List Allocation) :
    (refreshPaginationTotal prev1 (some l)).total = l.length
    ∧ (updatePaginationAfterDelete prev2 l.length).total = l.length := by
  constructor
  · rfl
  · unfold updatePaginationAfterDelete
    dsimp only
    split <;> rfl

/-- C5: the derived resources of a node are a pure function of the workloads
whose `node.id` equals the node's id: `cpuAllocated = Σ cpuPercent`,
`memoryAllocated = Σ memoryMiB·1024·1024`,
`diskAllocated = Σ (diskMiB or 0)·1024·1024`. -/
theorem C5_resource_aggregation (node : Node) (servers : List Server) :
    computeNodeResources node servers =
      { memoryAllocated :=
          (((servers.filter (fun s => s.node.id == node.id)).map
            (fun s => s.memoryMiB * 1024 * 1024)).sum : Int)
        diskAllocated :=
          (((servers.filter (fun s => s.node.id == node.id)).map
            (fun s => (s.diskMiB.getD 0) * 1024 * 1024)).sum : Int)
        cpuAllocated :=
          (((servers.filter (fun s => s.node.id == node.id)).map
            (fun s => s.cpuPercent)).sum : Int) } := by
  unfold computeNodeResources
  dsimp only
  rw [foldl_add_eq_sum (fun s : Server => s.memoryMiB * 1024 * 1024),
      foldl_add_eq_sum (fun s : Server => (s.diskMiB.getD 0) * 1024 * 1024),
      foldl_add_eq_sum (fun s : Server => s.cpuPercent)]
  simp

/-- C6: an unsuccessful node-deletion response carrying a workload count
greater than 0 produces the distinct blocked outcome with that count and
leaves the whole page state (node list, selected node, view) untouched; an
unsuccessful response without such a positive count produces the generic
failure, also without touching state. -/
theorem C6_delete_node_blocked (st : NodesPageState) (nodeId : String)
    (resp : DeleteNodeResponse) (refreshedNodes : List Node)
    (hok : resp.ok = false) :
    (∀ c, resp.count = some c → 0 < c →
      handleDelete st nodeId resp refreshedNodes = (st, .blocked c))
    ∧ ((resp.count = none ∨ ∃ c, resp.count = some c ∧ c ≤ 0) →
      handleDelete st nodeId resp refreshedNodes =
        (st, .genericFailure (resp.error.getD "Failed to delete node"))) := by
  constructor
  · intro c hc hpos
    unfold handleDelete
    rw [hok]
    simp only [Bool.false_eq_true, if_false]
    have hb : blockedCheck resp.count = true := by
      rw [hc]
      unfold blockedCheck
      simp only [Bool.and_eq_true, bne_iff_ne, decide_eq_true_eq]
      omega
    rw [if_pos hb, hc]
    rfl
  · intro hcase
    unfold handleDelete
    rw [hok]
    simp only [Bool.false_eq_true, if_false]
    have hb : blockedCheck resp.count = false := by
      rcases hcase with h | ⟨c, hc, hle⟩
      · rw [h]; rfl
      · rw [hc]
        unfold blockedCheck
        simp only [Bool.and_eq_false_iff, decide_eq_false_iff_not]
        omega
    rw [if_neg (by simp [hb])]

/-- Witness for C6: a failed response carrying `count = 2` yields the blocked
outcome with count 2 and an unchanged page state. -/
theorem C6_delete_node_blocked_witness :
    ((⟨false, some 2, none⟩ : DeleteNodeResponse).ok = false)
    ∧ handleDelete ⟨[], none, true⟩ "node-1" ⟨false, some 2, none⟩ []
        = (⟨[], none, true⟩, .blocked 2) :=
  ⟨rfl, (C6_delete_node_blocked ⟨[], none, true⟩ "node-1" ⟨false, some 2, none⟩ [] rfl).1
    2 rfl (by decide)⟩

/-- The sweep loop threads the pool state sequentially and attempts every
selected id in order, regardless of which deletions succeed. -/
theorem deleteSelectedSweep_spec (succeeds : String → Bool)
    (pool : List Allocation) (sel : List String) :
    deleteSelectedSweep succeeds pool sel =
      (sel.foldl (deleteAllocOnServer succeeds) pool, sel) := by
  induction sel generalizing pool with
  | nil => rfl
  | cons id rest ih =>
    unfold deleteSelectedSweep
    dsimp only
    rw [ih]
    rfl

/-- C7: for every non-empty selection, bulk deletion attempts every selected
allocation exactly once, in selection order (sequentially: each deletion
threads the pool state left by the previous one, as the `foldl` shows), the
set of attempts does not depend on which individual deletions fail, and the
selection set is cleared at the end. -/
theorem C7_bulk_delete_sweep (succeeds : String → Bool) (pool : List Allocation)
    (sel : List String) (_hsel : sel ≠ []) :
    (handleDeleteSelected succeeds pool sel).2.1 = sel
    ∧ (handleDeleteSelected succeeds pool sel).2.2 = []
    ∧ (handleDeleteSelected succeeds pool sel).1 =
        sel.foldl (deleteAllocOnServer succeeds) pool := by
  unfold handleDeleteSelected
  rw [deleteSelectedSweep_spec]
  exact ⟨rfl, rfl, rfl⟩

/-- Witness for C7: a two-element selection where the second deletion fails
is still attempted in full and the selection is cleared. -/
theorem C7_bulk_delete_sweep_witness :
    (["u01", "u02"] ≠ ([] : List String))
    ∧ (handleDeleteSelected (fun id => id == "u01")
        [mkAlloc "u01" false, mkAlloc "u02" false] ["u01", "u02"]).2.1 = ["u01", "u02"]
    ∧ (handleDeleteSelected (fun id => id == "u01")
        [mkAlloc "u01" false, mkAlloc "u02" false] ["u01", "u02"]).2.2 = []
    ∧ (handleDeleteSelected (fun id => id == "u01")
        [mkAlloc "u01" false, mkAlloc "u02" false] ["u01", "u02"]).1 =
        ["u01", "u02"].foldl (deleteAllocOnServer (fun id => id == "u01"))
          [mkAlloc "u01" false, mkAlloc "u02" false] :=
  ⟨by decide,
   C7_bulk_delete_sweep (fun id => id == "u01")
     [mkAlloc "u01" false, mkAlloc "u02" false] ["u01", "u02"] (by decide)⟩

/-- C8: during a refresh the status probe is issued exactly for the nodes
reported online (in list order); the refreshed node list is a total map over
the input (no probe outcome can abort it or change its length); a node whose
probe fails — non-ok response or network error — ends up with `systemState`
absent; and each node's result depends only on its own probe outcome. -/
theorem C8_probe_isolation (probe : Node → ProbeResult) (nodes : List Node) :
    (attachSystemStates probe nodes).2 =
      (nodes.filter (fun n => n.isOnline)).map (fun n => n.id)
    ∧ (attachSystemStates probe nodes).1 = nodes.map (updateNodeState probe)
    ∧ (attachSystemStates probe nodes).1.length = nodes.length
    ∧ (∀ node : Node, node.isOnline = true →
        (probe node = .httpError ∨ probe node = .networkFailure) →
        (updateNodeState probe node).systemState = none)
    ∧ (∀ (probe2 : Node → ProbeResult) (node : Node), probe node = probe2 node →
        updateNodeState probe node = updateNodeState probe2 node) := by
  have hmain : (attachSystemStates probe nodes).2 =
        (nodes.filter (fun n => n.isOnline)).map (fun n => n.id)
      ∧ (attachSystemStates probe nodes).1 = nodes.map (updateNodeState probe) := by
    induction nodes with
    | nil => exact ⟨rfl, rfl⟩
    | cons node rest ih =>
      unfold attachSystemStates
      rcases hon : node.isOnline with _ | _
      · rw [List.filter_cons_of_neg (by simp [hon]), List.map_cons]
        simp only [hon, Bool.false_eq_true, if_false]
        refine ⟨ih.1, ?_⟩
        rw [ih.2]
        unfold updateNodeState
        rw [hon]
        simp
      · rw [List.filter_cons_of_pos (by simp [hon]), List.map_cons, List.map_cons]
        simp only [hon, if_true]
        refine ⟨by rw [ih.1], ?_⟩
        rw [ih.2]
        unfold updateNodeState
        rw [hon]
        simp
  refine ⟨hmain.1, hmain.2, ?_, ?_, ?_⟩
  · rw [hmain.2, List.length_map]
  · intro node hon hfail
    unfold updateNodeState
    rw [hon]
    simp only [if_true]
    rcases hfail with h | h <;> simp [fetchNodeState, h]
  · intro probe2 node hpr
    unfold updateNodeState fetchNodeState
    rw [hpr]

/-- A sample online node. -/
def nodeOnline : Node :=
  { id := "n1", name := "a", fqdn := "a.example.com", port := 8080,
    isOnline := true, systemState := none, allocations := none,
    resources := none }

/-- A sample offline node. -/
def nodeOffline : Node :=
  { id := "n2", name := "b", fqdn := "b.example.com", port := 8080,
    isOnline := false, systemState := none, allocations := none,
    resources := none }

/-- Witness for C8: one online and one offline node with a probe that always
fails with a non-ok response — only the online node is probed and its
system state ends up absent. -/
theorem C8_probe_isolation_witness :
    (attachSystemStates (fun _ => ProbeResult.httpError) [nodeOnline, nodeOffline]).2
      = ([nodeOnline, nodeOffline].filter (fun n => n.isOnline)).map (fun n => n.id)
    ∧ (updateNodeState (fun _ => ProbeResult.httpError) nodeOnline).systemState = none :=
  ⟨(C8_probe_isolation (fun _ => ProbeResult.httpError) [nodeOnline, nodeOffline]).1,
   (C8_probe_isolation (fun _ => ProbeResult.httpError) [nodeOnline, nodeOffline]).2.2.2.1
     nodeOnline rfl (Or.inl rfl)⟩

/-- C9 counterexample: with pagination state (page 2, limit 10, total 0) the
window is the single button `[1]`, so the current page 2 is not inside the
displayed window, contradicting the claim's "always keeping the current page
inside the displayed window" over every pagination state. -/
theorem C9_counterexample :
    pageButtons { page := 2, limit := 10, total := 0 } = [1]
    ∧ ¬ (2 ∈ pageButtons { page := 2, limit := 10, total := 0 }) := by
  decide

/-- C9 (amended): the number of pages is `max(1, ceil(total/limit))` — at
least `total/limit` rounded up, minimal, and 1 when `total = 0`; at most
`min(5, totalPages)` buttons are rendered; the numbering is `1..totalPages`
when `totalPages ≤ 5`, and otherwise `1..5` when `current ≤ 3`,
`totalPages-4..totalPages` when `current ≥ totalPages-2`, and
`current-2..current+2` in between (in particular `current-2..current+2`
whenever that full range fits inside `1..totalPages`); the current page lies
inside the displayed window whenever `1 ≤ page ≤ totalPages`. -/
theorem C9_pagination_window (p : PaginationState) (hL : 1 ≤ p.limit) :
    totalPagesUI p = max 1 (ceilDivNat p.total p.limit)
    ∧ p.total ≤ totalPagesUI p * p.limit
    ∧ (1 < totalPagesUI p → (totalPagesUI p - 1) * p.limit < p.total)
    ∧ (p.total = 0 → totalPagesUI p = 1)
    ∧ (pageButtons p).length = min 5 (totalPagesUI p)
    ∧ (pageButtons p).length ≤ 5
    ∧ (totalPagesUI p ≤ 5 →
        pageButtons p = (List.range (totalPagesUI p)).map (fun i => i + 1))
    ∧ (5 < totalPagesUI p → p.page ≤ 3 → pageButtons p = [1, 2, 3, 4, 5])
    ∧ (5 < totalPagesUI p → totalPagesUI p - 2 ≤ p.page →
        pageButtons p = (List.range 5).map (fun i => totalPagesUI p - 4 + i))
    ∧ (5 < totalPagesUI p → 3 < p.page → p.page < totalPagesUI p - 2 →
        pageButtons p = (List.range 5).map (fun i => p.page - 2 + i))
    ∧ (3 ≤ p.page → p.page + 2 ≤ totalPagesUI p →
        pageButtons p = (List.range 5).map (fun i => p.page - 2 + i))
    ∧ (1 ≤ p.page → p.page ≤ totalPagesUI p → p.page ∈ pageButtons p) := by
  have hle : p.total ≤ totalPagesUI p * p.limit := by
    calc p.total ≤ ceilDivNat p.total p.limit * p.limit := le_ceilDivNat_mul _ _ hL
    _ ≤ totalPagesUI p * p.limit :=
        Nat.mul_le_mul_right _ (le_max_right 1 _)
  have hmin2 : 1 < totalPagesUI p → (totalPagesUI p - 1) * p.limit < p.total := by
    intro h
    have hc : 1 < ceilDivNat p.total p.limit := by
      by_contra hc
      push_neg at hc
      have h1 : totalPagesUI p = 1 := Nat.max_eq_left hc
      omega
    have htp : totalPagesUI p = ceilDivNat p.total p.limit :=
      Nat.max_eq_right (by omega)
    rw [htp]
    have h1 : ceilDivNat p.total p.limit * p.limit ≤ p.total + p.limit - 1 := by
      unfold ceilDivNat
      exact Nat.div_mul_le_self _ _
    have h2 : 2 * p.limit ≤ ceilDivNat p.total p.limit * p.limit :=
      Nat.mul_le_mul_right _ (by omega)
    have h3 : (ceilDivNat p.total p.limit - 1) * p.limit
        = ceilDivNat p.total p.limit * p.limit - 1 * p.limit := Nat.sub_mul _ _ _
    omega
  have hzero : p.total = 0 → totalPagesUI p = 1 := by
    intro h0
    have hc : ceilDivNat p.total p.limit = 0 := by
      unfold ceilDivNat
      rw [h0]
      exact Nat.div_eq_of_lt (by omega)
    unfold totalPagesUI
    rw [hc]
    decide
  have hlen : (pageButtons p).length = min 5 (totalPagesUI p) := by
    unfold pageButtons
    dsimp only
    rw [List.length_map, List.length_range]
  have case_small : totalPagesUI p ≤ 5 →
      pageButtons p = (List.range (totalPagesUI p)).map (fun i => i + 1) := by
    intro h
    unfold pageButtons
    dsimp only
    rw [min_eq_right h]
    simp only [if_pos h]
  have case_start : 5 < totalPagesUI p → p.page ≤ 3 →
      pageButtons p = [1, 2, 3, 4, 5] := by
    intro h hp
    unfold pageButtons
    dsimp only
    rw [min_eq_left h.le]
    simp only [if_neg (by omega : ¬ totalPagesUI p ≤ 5), if_pos hp]
    decide
  have case_end : 5 < totalPagesUI p → totalPagesUI p - 2 ≤ p.page →
      pageButtons p = (List.range 5).map (fun i => totalPagesUI p - 4 + i) := by
    intro h he
    unfold pageButtons
    dsimp only
    rw [min_eq_left h.le]
    simp only [if_neg (by omega : ¬ totalPagesUI p ≤ 5),
      if_neg (by omega : ¬ p.page ≤ 3), if_pos he]
  have case_mid : 5 < totalPagesUI p → 3 < p.page → p.page < totalPagesUI p - 2 →
      pageButtons p = (List.range 5).map (fun i => p.page - 2 + i) := by
    intro h hp he
    unfold pageButtons
    dsimp only
    rw [min_eq_left h.le]
    simp only [if_neg (by omega : ¬ totalPagesUI p ≤ 5),
      if_neg (by omega : ¬ p.page ≤ 3),
      if_neg (by omega : ¬ totalPagesUI p - 2 ≤ p.page)]
  have case_fits : 3 ≤ p.page → p.page + 2 ≤ totalPagesUI p →
      pageButtons p = (List.range 5).map (fun i => p.page - 2 + i) := by
    intro h3 hf
    rcases le_or_lt (totalPagesUI p) 5 with h | h
    · have hp3 : p.page = 3 := by omega
      have htp5 : totalPagesUI p = 5 := by omega
      rw [case_small h, htp5, hp3]
      decide
    · rcases le_or_lt p.page 3 with hp | hp
      · have hp3 : p.page = 3 := by omega
        rw [case_start h hp, hp3]
        decide
      · rcases le_or_lt (totalPagesUI p - 2) p.page with he | he
        · have hpe : p.page = totalPagesUI p - 2 := by omega
          rw [case_end h he]
          apply List.map_congr_left
          intro i _
          omega
        · exact case_mid h hp he
  have mem : 1 ≤ p.page → p.page ≤ totalPagesUI p → p.page ∈ pageButtons p := by
    intro h1 h2
    rcases le_or_lt (totalPagesUI p) 5 with h | h
    · rw [case_small h]
      simp only [List.mem_map, List.mem_range]
      exact ⟨p.page - 1, by omega, by omega⟩
    · rcases le_or_lt p.page 3 with hp | hp
      · rw [case_start h hp]
        have hcase : p.page = 1 ∨ p.page = 2 ∨ p.page = 3 := by omega
        rcases hcase with hc | hc | hc <;> rw [hc] <;> decide
      · rcases le_or_lt (totalPagesUI p - 2) p.page with he | he
        · rw [case_end h he]
          simp only [List.mem_map, List.mem_range]
          exact ⟨p.page - (totalPagesUI p - 4), by omega, by omega⟩
        · rw [case_mid h hp he]
          simp only [List.mem_map, List.mem_range]
          exact ⟨2, by omega, by omega⟩
  exact ⟨rfl, hle, hmin2, hzero, hlen, by rw [hlen]; exact min_le_left _ _,
    case_small, case_start, case_end, case_mid, case_fits, mem⟩

/-- Witness for C9 (amended): page 7 of 20 (total 200, limit 10) renders the
window 5..9 and contains the current page. -/
theorem C9_pagination_window_witness :
    1 ≤ 10
    ∧ pageButtons { page := 7, limit := 10, total := 200 } =
        (List.range 5).map (fun i => 7 - 2 + i)
    ∧ 7 ∈ pageButtons { page := 7, limit := 10, total := 200 } := by
  refine ⟨by decide, ?_, ?_⟩
  · exact (C9_pagination_window { page := 7, limit := 10, total := 200 }
      (by decide)).2.2.2.2.2.2.2.2.2.1 (by decide) (by decide) (by decide)
  · exact (C9_pagination_window { page := 7, limit := 10, total := 200 }
      (by decide)).2.2.2.2.2.2.2.2.2.2.2 (by decide) (by decide)

/-- C10 counterexample: a query change to the empty string with a previous
selection index of 3 takes the early-return branch, which restores the full
list but does not reset the keyboard selection index to 0 — contradicting
the claim's "every query change resets the keyboard selection index to 0". -/
theorem C10_counterexample :
    (SearchBar.filterEffect [] [] 3).2 = 3
    ∧ (SearchBar.filterEffect [] [] 3).2 ≠ 0 := by
  decide

/-- C10 (amended): an empty or whitespace-only query yields the entire cached
list unfiltered and leaves the keyboard selection index unchanged (the effect
returns early before the reset); a non-blank query yields exactly the servers
whose lowercased name contains the lowercased query or whose node's
lowercased fqdn contains it — a server with no node record is retained only
on a name match — and resets the selection index to 0. -/
theorem C10_search_filter (servers : List SearchBar.Server) (query : List Char)
    (prevIndex : Nat) :
    (SearchBar.queryBlank query = true →
      SearchBar.filterEffect servers query prevIndex = (servers, prevIndex))
    ∧ (SearchBar.queryBlank query = false →
        (SearchBar.filterEffect servers query prevIndex).2 = 0
        ∧ ∀ s : SearchBar.Server,
            s ∈ (SearchBar.filterEffect servers query prevIndex).1 ↔
              s ∈ servers ∧
                (SearchBar.jsIncludes (SearchBar.jsToLower s.name)
                    (SearchBar.jsToLower query) = true
                 ∨ ∃ nr, s.node = some nr ∧
                     SearchBar.jsIncludes (SearchBar.jsToLower nr.fqdn)
                       (SearchBar.jsToLower query) = true))
    ∧ (∀ s : SearchBar.Server, s.node = none → SearchBar.queryBlank query = false →
        (s ∈ (SearchBar.filterEffect servers query prevIndex).1 ↔
          s ∈ servers ∧ SearchBar.jsIncludes (SearchBar.jsToLower s.name)
            (SearchBar.jsToLower query) = true)) := by
  have hmatch : ∀ s : SearchBar.Server,
      SearchBar.matchesQuery (SearchBar.jsToLower query) s = true ↔
        (SearchBar.jsIncludes (SearchBar.jsToLower s.name)
            (SearchBar.jsToLower query) = true
         ∨ ∃ nr, s.node = some nr ∧
             SearchBar.jsIncludes (SearchBar.jsToLower nr.fqdn)
               (SearchBar.jsToLower query) = true) := by
    intro s
    unfold SearchBar.matchesQuery
    rcases hn : s.node with _ | nr
    · simp [hn]
    · simp [hn]
  refine ⟨?_, ?_, ?_⟩
  · intro h
    unfold SearchBar.filterEffect
    rw [if_pos h]
  · intro h
    unfold SearchBar.filterEffect
    rw [if_neg (by simp [h])]
    refine ⟨rfl, ?_⟩
    intro s
    rw [List.mem_filter, hmatch s]
  · intro s hnode h
    unfold SearchBar.filterEffect
    rw [if_neg (by simp [h])]
    rw [List.mem_filter, hmatch s, hnode]
    simp

/-- A sample server with no node record. -/
def demoServer1 : SearchBar.Server :=
  { id := ['s', '1'], name := ['W', 'e', 'b'], node := none }

/-- A sample server attached to a node. -/
def demoServer2 : SearchBar.Server :=
  { id := ['s', '2'], name := ['d', 'b'],
    node := some { fqdn := ['N', 'o', 'd', 'e', '.', 'X'], port := 8080 } }

/-- The sample cached server list. -/
def demoServers : List SearchBar.Server := [demoServer1, demoServer2]

/-- Witness for C10 (amended): the non-blank query "B" resets the index to 0,
and the node-less server is retained exactly on its (case-insensitive) name
match. -/
theorem C10_search_filter_witness :
    SearchBar.queryBlank ['B'] = false
    ∧ (SearchBar.filterEffect demoServers ['B'] 4).2 = 0
    ∧ (demoServer1 ∈ (SearchBar.filterEffect demoServers ['B'] 4).1 ↔
        demoServer1 ∈ demoServers
          ∧ SearchBar.jsIncludes (SearchBar.jsToLower demoServer1.name)
              (SearchBar.jsToLower ['B']) = true) :=
  ⟨by decide, ((C10_search_filter demoServers ['B'] 4).2.1 (by decide)).1,
   (C10_search_filter demoServers ['B'] 4).2.2 demoServer1 rfl (by decide)⟩
